import Mathlib

/-!
# Verification of the ai_credit_check batch-extraction pipeline

Shallow embedding, in Lean 4, of the concurrent batch-extraction pipeline of the
`extraction` Go module: the batch scheduler (`batch.ProcessFilesWithSources`),
the OCR fallback chains (`ocr.ExtractTextFromPDF`, the image-recovery branch of
`batch.processOneFileWithSource`), the rate-limited retrying Gemini client
(`analysis.enforceRateLimit`, `analysis.analyzeDocumentWithRetry`,
`analysis.extractJSONFromGemini`), and the aggregator
(`analysis.UpdateCustomerCheck`, `analysis.CompareAddresses`,
`analysis.addressesMatch`).

Modelling conventions.
* Go strings are modelled as `List Char` (`Str`); the sources only ever take
  byte lengths of ASCII data where lengths matter, so character count stands in
  for `len`.  Where a Go struct field is a `string` the Lean record field is a
  Lean `String` (whose data is a `List Char`).
* External effects (HTTP calls, subprocesses, the filesystem, `json.Unmarshal`)
  are parameters of the embedded functions: each embedded function takes the
  outcomes of its external calls as arguments and computes exactly what the Go
  control flow computes from them.
* `time.Time` values are integers.  Durations are in seconds.
* JSON numbers (`float64` in Go) are modelled as rationals; the Go
  `int64(float64)` conversion is truncation toward zero.
-/

/-- Go strings, modelled as lists of characters. -/
abbrev Str := List Char

/-- Convert a Lean string literal to the `Str` model. -/
def str (s : String) : Str := s.toList

/-- The characters Go's `unicode.IsSpace` recognises in ASCII
(space, tab, newline, vertical tab, form feed, carriage return). -/
def goIsSpace (c : Char) : Bool :=
  c = ' ' || c = '\t' || c = '\n' || c = '\x0b' || c = '\x0c' || c = '\r'

/-- Go `strings.TrimSpace`: drop leading and trailing whitespace. -/
def goTrimSpace (l : Str) : Str :=
  ((l.dropWhile goIsSpace).reverse.dropWhile goIsSpace).reverse

/-- Go `strings.Contains s sub`: `sub` occurs as a contiguous substring of `s`. -/
def goContains : Str → Str → Bool
  | [], sub => sub.isPrefixOf []
  | c :: t, sub => sub.isPrefixOf (c :: t) || goContains t sub

/-- Go `strings.ToLower` (ASCII). -/
def goToLower (l : Str) : Str := l.map Char.toLower

/-- Accumulator loop for `goFields` (structurally recursive). -/
def goFieldsAux : Str → Str → List Str
  | [], acc => if acc.isEmpty then [] else [acc.reverse]
  | c :: cs, acc =>
    if goIsSpace c then
      if acc.isEmpty then goFieldsAux cs [] else acc.reverse :: goFieldsAux cs []
    else goFieldsAux cs (c :: acc)

/-- Go `strings.Fields`: split around runs of whitespace. -/
def goFields (l : Str) : List Str := goFieldsAux l []

/-- Fuelled body of Go `strings.ReplaceAll` (leftmost, non-overlapping;
the fuel `l.length` always suffices since each step consumes at least
one character of the input). -/
def goReplaceAllFuel (pat rep : Str) : Nat → Str → Str
  | _, [] => []
  | 0, l => l
  | fuel + 1, c :: cs =>
    if pat ≠ [] ∧ pat.isPrefixOf (c :: cs) then
      rep ++ goReplaceAllFuel pat rep fuel ((c :: cs).drop pat.length)
    else
      c :: goReplaceAllFuel pat rep fuel cs

/-- Go `strings.ReplaceAll pat rep` applied to `l`. -/
def goReplaceAll (pat rep l : Str) : Str := goReplaceAllFuel pat rep l.length l

/-- Go `strings.TrimPrefix`. -/
def goTrimPre (pre l : Str) : Str :=
  if pre.isPrefixOf l then l.drop pre.length else l

/-- Go `strings.TrimSuffix`. -/
def goTrimSuf (suf l : Str) : Str :=
  if suf.isSuffixOf l then l.take (l.length - suf.length) else l

/-- String-typed wrapper of `goTrimSpace`. -/
def goTrimSpaceS (s : String) : String := ⟨goTrimSpace s.toList⟩

/-- String-typed wrapper of `goToLower`. -/
def goToLowerS (s : String) : String := ⟨goToLower s.toList⟩

/-- String-typed wrapper of `goContains`. -/
def goContainsS (s sub : String) : Bool := goContains s.toList sub.toList

/-!
## Batch scheduler (src/unnamed/part_000, `ProcessFilesWithSources`)

Each input spawns one goroutine which always sends exactly one `FileResult` on
the results channel (the worker `processOneFileWithSource` is total: every
failure is recorded in the `Error` field).  The scheduler joins on all workers
and then computes the statistics with a single loop.  The per-file work is
abstracted as a total function `resultOf` from input reference to its
`FileResult`.
-/

/-- `types.FileResult` (src/internal/types/types.go).  Wall-clock fields are
integers. -/
structure FileResult where
  sourceURL : String := ""
  localPath : String := ""
  fileName : String := ""
  fileType : String := ""
  extractedText : String := ""
  error : String := ""
  processedAt : Int := 0
  processingTime : Int := 0
  fileSize : Int := 0
  documentSource : String := ""
deriving DecidableEq, Repr

/-- `types.BatchResult` (statistics part; timing fields omitted, the aggregate
record is threaded separately as in the source). -/
structure BatchResult where
  totalFiles : Nat
  processedFiles : Nat
  failedFiles : Nat
  skippedFiles : Nat
  results : List FileResult
deriving Repr

/-- The statistics loop of `ProcessFilesWithSources` (part_000 lines 157-170):
returns (processed, failed, skipped). -/
def batchStats : List FileResult → Nat × Nat × Nat
  | [] => (0, 0, 0)
  | r :: rs =>
    let s := batchStats rs
    if r.error ≠ "" then (s.1, s.2.1 + 1, s.2.2)
    else if r.extractedText = "" then (s.1, s.2.1, s.2.2 + 1)
    else (s.1 + 1, s.2.1, s.2.2)

/-- `ProcessFilesWithSources` (part_000 lines 62-188), with the per-file worker
abstracted as `resultOf`.  Every worker contributes exactly one result; the
collection order is immaterial to the returned statistics. -/
def processFilesWithSources (inputs : List String) (resultOf : String → FileResult) :
    BatchResult :=
  let results := inputs.map resultOf
  let stats := batchStats results
  { totalFiles := inputs.length
    processedFiles := stats.1
    failedFiles := stats.2.1
    skippedFiles := stats.2.2
    results := results }

/-!
## Retrying Gemini client (src/unnamed/part_002, `analyzeDocumentWithRetry`)
-/

/-- One HTTP response as seen by `analyzeDocumentWithRetry`:
the numeric status code, the Go `resp.Status` text, the body, and the
retry delay (seconds) parsed from a 429 error body when present. -/
structure HTTPResponse where
  statusCode : Nat
  statusText : String
  body : String
  retryDelay : Option Nat
deriving DecidableEq, Repr

/-- Outcome of the retry driver: a 2xx body handed on to response parsing,
a terminal error string, or exhaustion of the modelling fuel. -/
inductive RetryOutcome where
  | ok (attempt : Nat) (body : String)
  | httpError (msg : String)
  | fuelExhausted
deriving DecidableEq, Repr

/-- The status-handling recursion of `analyzeDocumentWithRetry`
(part_002 lines 108-200): on a 2xx the body is parsed; on a 429 whose body
names a retry delay the call sleeps that long and recurses unboundedly; on a
503 with `retryCount < 3` it sleeps `5 * 2^retryCount` seconds and recurses;
otherwise it returns `gemini http error: <status> - <body>`.  `responses i` is
the response to the i-th HTTP attempt; the returned list is the sequence of
sleeps (seconds).  The recursion is modelled with fuel because the 429 path of
the source has no attempt cap. -/
def analyzeDocumentWithRetry (responses : Nat → HTTPResponse) :
    Nat → Nat → Nat → List Nat × RetryOutcome
  | _, _, 0 => ([], .fuelExhausted)
  | attempt, retryCount, fuel + 1 =>
    let resp := responses attempt
    if 200 ≤ resp.statusCode ∧ resp.statusCode < 300 then
      ([], .ok attempt resp.body)
    else if resp.statusCode = 429 ∧ resp.retryDelay.isSome then
      let d := resp.retryDelay.getD 0
      let rest := analyzeDocumentWithRetry responses (attempt + 1) (retryCount + 1) fuel
      (d :: rest.1, rest.2)
    else if resp.statusCode = 503 ∧ retryCount < 3 then
      let d := 5 * 2 ^ retryCount
      let rest := analyzeDocumentWithRetry responses (attempt + 1) (retryCount + 1) fuel
      (d :: rest.1, rest.2)
    else
      ([], .httpError ("gemini http error: " ++ resp.statusText ++ " - " ++ resp.body))

/-!  Claim theorems for C1 and C2. -/

theorem batchStats_counts (rs : List FileResult) :
    batchStats rs =
      (rs.countP (fun r => r.error = "" && r.extractedText ≠ ""),
       rs.countP (fun r => r.error ≠ ""),
       rs.countP (fun r => r.error = "" && r.extractedText = "")) := by
  induction rs with
  | nil => simp [batchStats]
  | cons r rs ih =>
    simp only [batchStats, ih, List.countP_cons]
    by_cases h1 : r.error = "" <;> by_cases h2 : r.extractedText = "" <;>
      simp [h1, h2]

theorem batchStats_sum (rs : List FileResult) :
    (batchStats rs).1 + (batchStats rs).2.1 + (batchStats rs).2.2 = rs.length := by
  induction rs with
  | nil => simp [batchStats]
  | cons r rs ih =>
    simp only [batchStats]
    by_cases h1 : r.error = "" <;> by_cases h2 : r.extractedText = "" <;>
      simp [h1, h2] <;> omega

/-- Claim C1: for every batch of K inputs, `ProcessFilesWithSources` returns a
`BatchResult` with exactly K `FileResult`s (one per input, produced by the
total per-file worker, so no individual failure raises), and the statistics
partition the results: `failedFiles` counts results with a non-empty error,
`skippedFiles` counts results with no error and empty extracted text,
`processedFiles` counts the rest, and the three sum to K. -/
theorem processFilesWithSources_returns_all_and_partitions
    (inputs : List String) (resultOf : String → FileResult) :
    (processFilesWithSources inputs resultOf).results.length = inputs.length ∧
    (processFilesWithSources inputs resultOf).totalFiles = inputs.length ∧
    (processFilesWithSources inputs resultOf).failedFiles =
      ((processFilesWithSources inputs resultOf).results.filter
        (fun r => r.error ≠ "")).length ∧
    (processFilesWithSources inputs resultOf).skippedFiles =
      ((processFilesWithSources inputs resultOf).results.filter
        (fun r => r.error = "" && r.extractedText = "")).length ∧
    (processFilesWithSources inputs resultOf).processedFiles =
      ((processFilesWithSources inputs resultOf).results.filter
        (fun r => r.error = "" && r.extractedText ≠ "")).length ∧
    (processFilesWithSources inputs resultOf).processedFiles +
      (processFilesWithSources inputs resultOf).failedFiles +
      (processFilesWithSources inputs resultOf).skippedFiles = inputs.length := by
  refine ⟨by simp [processFilesWithSources], rfl, ?_, ?_, ?_, ?_⟩
  · simp [processFilesWithSources, batchStats_counts, List.countP_eq_length_filter]
  · simp [processFilesWithSources, batchStats_counts, List.countP_eq_length_filter]
  · simp [processFilesWithSources, batchStats_counts, List.countP_eq_length_filter]
  · have h := batchStats_sum (inputs.map resultOf)
    simpa [processFilesWithSources] using h

/-- Claim C2: when every attempt answers HTTP 503 (with no parseable 429 retry
delay, as a 503 body has none), `analyzeDocumentWithRetry` retries exactly
three times, sleeping the strictly increasing doubling delays 5 s, 10 s, 20 s,
and then returns the terminal error `gemini http error: <status> - <body>`
containing the status text and the response body, instead of retrying
further. -/
theorem analyzeDocumentWithRetry_503_cap (resp : HTTPResponse) (fuel : Nat)
    (h503 : resp.statusCode = 503) (hrd : resp.retryDelay = none)
    (hfuel : 4 ≤ fuel) :
    analyzeDocumentWithRetry (fun _ => resp) 0 0 fuel =
      ([5, 10, 20],
       .httpError ("gemini http error: " ++ resp.statusText ++ " - " ++ resp.body)) ∧
    List.Chain' (fun a b => a < b ∧ b = 2 * a) [5, 10, 20] := by
  obtain ⟨k, rfl⟩ : ∃ k, fuel = k + 4 := ⟨fuel - 4, by omega⟩
  refine ⟨?_, by norm_num [List.chain'_cons, List.chain'_singleton]⟩
  simp [analyzeDocumentWithRetry, h503, hrd]

/-- Witness for C2 at a concrete 503 response and fuel 4. -/
theorem analyzeDocumentWithRetry_503_cap_witness :
    (HTTPResponse.statusCode ⟨503, "503 Service Unavailable", "overloaded", none⟩ = 503) ∧
    analyzeDocumentWithRetry
        (fun _ => ⟨503, "503 Service Unavailable", "overloaded", none⟩) 0 0 4 =
      ([5, 10, 20],
       .httpError ("gemini http error: " ++ "503 Service Unavailable" ++ " - " ++ "overloaded")) :=
  ⟨rfl,
   (analyzeDocumentWithRetry_503_cap ⟨503, "503 Service Unavailable", "overloaded", none⟩ 4
      rfl rfl (by decide)).1⟩

/-!
## Image recovery chain (src/unnamed/part_000, `processOneFileWithSource`,
lines 233-270)

The external calls (primary vision OCR, the image converter, the vision retry
on the converted file, the Tesseract run) are parameters; the function computes
the (steps attempted, extracted text or error) exactly as the Go control flow
does.  An `Except.error` models a non-nil Go `error`.
-/

/-- The fixed default substituted for an unreadable site-visit photo. -/
def siteVisitSentinel : String :=
  "No signboard visible or signboard unclear in site visit photos"

/-- The recovery actions the image branch can attempt, in order. -/
inductive RecoveryStep where
  | convertImage
  | visionRetry
  | tesseractRetry
deriving DecidableEq, Repr

/-- `convertErr == nil && convertedPath != ""`: the converter produced a
non-empty path, so the vision retry runs on it. -/
def convProduced (convert : Except String String) : Bool :=
  match convert with
  | .ok p => p ≠ ""
  | .error _ => false

/-- The image case of `processOneFileWithSource`: primary vision OCR, then on a
"Bad image data" error signature a conversion attempt, a vision retry on the
converted file (only when conversion produced a path), a Tesseract retry
(accepted only when its text is non-blank), and finally either the site-visit
sentinel (error cleared) or a descriptive terminal error. -/
def processImageWithRecovery (primary convert visionOnConverted tesseract : Except String String)
    (source : String) : List RecoveryStep × Except String String :=
  match primary with
  | .ok t => ([], .ok t)
  | .error e0 =>
    if goContainsS e0 "Bad image data" then
      let conv := convProduced convert
      let steps1 : List RecoveryStep :=
        if conv then [.convertImage, .visionRetry] else [.convertImage]
      let r1 : Except String String := if conv then visionOnConverted else .error e0
      match r1 with
      | .ok t => (steps1, .ok t)
      | .error e1 =>
        let steps2 := steps1 ++ [.tesseractRetry]
        let r2 : Except String String :=
          match tesseract with
          | .ok tt => if goTrimSpaceS tt ≠ "" then .ok tt else .error e1
          | .error _ => .error e1
        match r2 with
        | .ok tt => (steps2, .ok tt)
        | .error e2 =>
          if source = "site_visit_photos" then (steps2, .ok siteVisitSentinel)
          else
            (steps2,
             .error ("image file appears to be corrupted or in an unsupported format, tried multiple processing methods: " ++ e2))
    else ([], .error e0)

/-- Claim C3: on a primary vision error carrying the "Bad image data"
signature, with the vision retry failing and the Tesseract retry failing (an
error, or blank text), the engine attempts conversion, then a vision retry
(when conversion produced a path), then the Tesseract retry, and finally: for
`site_visit_photos` it substitutes the fixed sentinel with no error, while for
every other kind it surfaces a descriptive terminal error instead of the
sentinel. -/
theorem processImageWithRecovery_chain
    (e0 e1 : String) (convert tesseract : Except String String) (source : String)
    (hsig : goContainsS e0 "Bad image data" = true)
    (htess : ∀ s, tesseract = .ok s → goTrimSpaceS s = "") :
    (convProduced convert = true →
      (processImageWithRecovery (.error e0) convert (.error e1) tesseract source).1 =
        [RecoveryStep.convertImage, RecoveryStep.visionRetry, RecoveryStep.tesseractRetry]) ∧
    (convProduced convert = false →
      (processImageWithRecovery (.error e0) convert (.error e1) tesseract source).1 =
        [RecoveryStep.convertImage, RecoveryStep.tesseractRetry]) ∧
    (source = "site_visit_photos" →
      (processImageWithRecovery (.error e0) convert (.error e1) tesseract source).2 =
        .ok siteVisitSentinel) ∧
    (source ≠ "site_visit_photos" →
      ∃ efin,
        (processImageWithRecovery (.error e0) convert (.error e1) tesseract source).2 =
          .error ("image file appears to be corrupted or in an unsupported format, tried multiple processing methods: " ++ efin)) := by
  have hmain : processImageWithRecovery (.error e0) convert (.error e1) tesseract source =
      ((if convProduced convert then [RecoveryStep.convertImage, RecoveryStep.visionRetry]
        else [RecoveryStep.convertImage]) ++ [RecoveryStep.tesseractRetry],
       if source = "site_visit_photos" then Except.ok siteVisitSentinel
       else
         .error ("image file appears to be corrupted or in an unsupported format, tried multiple processing methods: " ++
           (if convProduced convert then e1 else e0))) := by
    rcases hc : convProduced convert with _ | _ <;> rcases ht : tesseract with te | ts
    · simp [processImageWithRecovery, hsig, hc]; split <;> rfl
    · simp [processImageWithRecovery, hsig, hc, htess ts ht]; split <;> rfl
    · simp [processImageWithRecovery, hsig, hc]; split <;> rfl
    · simp [processImageWithRecovery, hsig, hc, htess ts ht]; split <;> rfl
  refine ⟨?_, ?_, ?_, ?_⟩
  · intro h; rw [hmain]; simp [h]
  · intro h; rw [hmain]; simp [h]
  · intro h; rw [hmain]; simp [h]
  · intro h; rw [hmain]; simp [h]

/-!
## Rate limiter (src/unnamed/part_002, `enforceRateLimit`, lines 86-100)

`geminiMutex` serialises every `enforceRateLimit` invocation process-wide, so
the concurrent executions form one sequence of calls; a call reads the clock
(`tRead`), sleeps the remainder of the minimum spacing, and stamps the
last-accepted time with a second clock read (`tStamp`).  The only facts the
model assumes about the clock are `RLValid`: each stamp read happens no earlier
than the entry read plus the slept duration.
-/

/-- `geminiRateLimitDelay` (seconds). -/
def geminiRateLimitDelay : Int := 35

/-- Sleep computed by `enforceRateLimit` from the stored last-accepted stamp
and the clock read at entry. -/
def rlSleepDuration (last now : Int) : Int :=
  if now - last < geminiRateLimitDelay then geminiRateLimitDelay - (now - last) else 0

/-- One serialised `enforceRateLimit` invocation: the clock read at entry and
the clock read that becomes the new last-accepted stamp. -/
structure RLCall where
  tRead : Int
  tStamp : Int
deriving DecidableEq, Repr

/-- `enforceRateLimit`: returns (sleep duration, new last-accepted stamp). -/
def enforceRateLimit (last : Int) (c : RLCall) : Int × Int :=
  (rlSleepDuration last c.tRead, c.tStamp)

/-- Clock sanity for a serialised call sequence: each call's stamping read
happens at least the slept duration after its entry read (sleeping for `d`
advances the monotone clock by at least `d`). -/
def RLValid : Int → List RLCall → Prop
  | _, [] => True
  | last, c :: rest =>
      c.tRead + rlSleepDuration last c.tRead ≤ c.tStamp ∧ RLValid c.tStamp rest

/-- Successive last-accepted stamps produced by threading `enforceRateLimit`
through a serialised call sequence. -/
def rlStamps : Int → List RLCall → List Int
  | _, [] => []
  | last, c :: rest =>
      (enforceRateLimit last c).2 :: rlStamps (enforceRateLimit last c).2 rest

/-- Claim C4: under mutex serialisation (given: the calls form one sequence)
and a monotone clock that a `sleep d` advances by at least `d`, any two
consecutive accepted stamps produced by `enforceRateLimit` are at least the
configured minimum spacing (35 s) apart, for every initial stamp and every
call sequence. -/
theorem enforceRateLimit_minimum_spacing (last : Int) (calls : List RLCall)
    (h : RLValid last calls) :
    List.Chain' (fun a b => geminiRateLimitDelay ≤ b - a) (last :: rlStamps last calls) := by
  induction calls generalizing last with
  | nil => simp [rlStamps]
  | cons c rest ih =>
    obtain ⟨h1, h2⟩ := h
    have hstep : geminiRateLimitDelay ≤ c.tStamp - last := by
      simp only [rlSleepDuration] at h1
      split at h1 <;> omega
    have htail := ih c.tStamp h2
    simpa [rlStamps, enforceRateLimit, List.chain'_cons] using ⟨hstep, htail⟩

/-- Witness for C4: a concrete two-call trace (one call needing no sleep, one
sleeping 25 s of the 35 s spacing). -/
theorem enforceRateLimit_minimum_spacing_witness :
    RLValid 0 [⟨100, 100⟩, ⟨110, 135⟩] ∧
    List.Chain' (fun a b => geminiRateLimitDelay ≤ b - a)
      (0 :: rlStamps 0 [⟨100, 100⟩, ⟨110, 135⟩]) := by
  have hv : RLValid 0 [⟨100, 100⟩, ⟨110, 135⟩] := by
    refine ⟨?_, ?_, trivial⟩ <;> norm_num [rlSleepDuration, geminiRateLimitDelay]
  exact ⟨hv, enforceRateLimit_minimum_spacing 0 [⟨100, 100⟩, ⟨110, 135⟩] hv⟩

/-!
## PDF extraction (src/internal/ocr/pdf.go and vision.go)

`ExtractTextFromPDF` runs `pdftotext`; if that succeeds and the trimmed output
is longer than 10 bytes it returns the embedded text, otherwise it falls back
to `ExtractTextFromPDFVision`, which rasterises the pages (at the given DPI,
defaulting to 300 when non-positive) and concatenates the per-page OCR results.
The `pdftotext` outcome and the per-page vision OCR outcomes are parameters.
-/

/-- The "\n\n" separator written between per-page OCR results. -/
def pdfSep : Str := ['\n', '\n']

/-- Result of the vision fallback: the DPI used for `pdftoppm` and the
concatenated text. -/
structure PDFVisionRun where
  dpi : Int
  text : Str
deriving DecidableEq, Repr

/-- The page loop of `ExtractTextFromPDFVision` (vision.go lines 218-231):
skip failed pages, trim each page text, skip blank pages, separate the rest
with a blank line. -/
def visionPageFold (pages : List (Except String Str)) : Str :=
  pages.foldl
    (fun b pg =>
      match pg with
      | .error _ => b
      | .ok t =>
        let s := goTrimSpace t
        if s ≠ [] then (if b ≠ [] then b ++ pdfSep ++ s else s) else b)
    []

/-- `ExtractTextFromPDFVision` (vision.go lines 186-232). -/
def extractTextFromPDFVision (dpi : Int) (pages : List (Except String Str)) : PDFVisionRun :=
  { dpi := if dpi ≤ 0 then 300 else dpi
    text := visionPageFold pages }

/-- Outcome of `ExtractTextFromPDF`: embedded text used directly, or the
vision fallback run. -/
inductive PDFExtraction where
  | embedded (text : Str)
  | ocr (run : PDFVisionRun)
deriving DecidableEq, Repr

/-- `ExtractTextFromPDF` (pdf.go lines 14-26): use the embedded text when
`pdftotext` succeeded and `len(strings.TrimSpace(txt)) > 10`, else fall back
to rasterised vision OCR with the DPI defaulted to 300 when non-positive. -/
def extractTextFromPDF (embeddedResult : Except String Str) (dpi : Int)
    (pages : List (Except String Str)) : PDFExtraction :=
  match embeddedResult with
  | .ok txt =>
    if 10 < (goTrimSpace txt).length then .embedded txt
    else .ocr (extractTextFromPDFVision (if dpi ≤ 0 then 300 else dpi) pages)
  | .error _ => .ocr (extractTextFromPDFVision (if dpi ≤ 0 then 300 else dpi) pages)

/-- The successful, non-blank page texts, trimmed (the pages whose OCR result
the fallback keeps). -/
def pageTexts (pages : List (Except String Str)) : List Str :=
  pages.filterMap
    (fun pg =>
      match pg with
      | .error _ => none
      | .ok t => if goTrimSpace t ≠ [] then some (goTrimSpace t) else none)

/-- Blank-line-separated concatenation. -/
def blankLineJoin : List Str → Str
  | [] => []
  | [s] => s
  | s :: rest => s ++ pdfSep ++ blankLineJoin rest

theorem pageTexts_cons_ok (t : Str) (rest : List (Except String Str))
    (hs : goTrimSpace t ≠ []) :
    pageTexts (Except.ok t :: rest) = goTrimSpace t :: pageTexts rest := by
  simp [pageTexts, hs]

theorem visionPageFold_acc (pages : List (Except String Str)) :
    ∀ b : Str, b ≠ [] →
      pages.foldl
        (fun b pg =>
          match pg with
          | .error _ => b
          | .ok t =>
            let s := goTrimSpace t
            if s ≠ [] then (if b ≠ [] then b ++ pdfSep ++ s else s) else b)
        b =
      (if pageTexts pages = [] then b else b ++ pdfSep ++ blankLineJoin (pageTexts pages)) := by
  induction pages with
  | nil => intro b hb; simp [pageTexts]
  | cons pg rest ih =>
    intro b hb
    rcases pg with e | t
    · simpa [pageTexts] using ih b hb
    · by_cases hs : goTrimSpace t = []
      · simpa [pageTexts, hs] using ih b hb
      · have hpt := pageTexts_cons_ok t rest hs
        have hb2 : b ++ pdfSep ++ goTrimSpace t ≠ [] := by simp [pdfSep]
        have hih := ih (b ++ pdfSep ++ goTrimSpace t) hb2
        simp only [List.foldl_cons, hs, hb, not_false_iff, ne_eq, ite_true, ite_false,
          if_neg, if_pos, not_true_eq_false] at hih ⊢
        rw [hih, hpt]
        rcases hptr : pageTexts rest with _ | ⟨x, xs⟩
        · simp [blankLineJoin]
        · simp [blankLineJoin, List.append_assoc]

theorem visionPageFold_eq_join (pages : List (Except String Str)) :
    visionPageFold pages = blankLineJoin (pageTexts pages) := by
  induction pages with
  | nil => rfl
  | cons pg rest ih =>
    rcases pg with e | t
    · simpa [visionPageFold, pageTexts] using ih
    · by_cases hs : goTrimSpace t = []
      · simpa [visionPageFold, pageTexts, hs] using ih
      · have hpt := pageTexts_cons_ok t rest hs
        have hacc := visionPageFold_acc rest (goTrimSpace t) hs
        simp only [visionPageFold, List.foldl_cons, hs, not_false_iff, ne_eq, ite_true,
          ite_false, if_neg, if_pos, not_true_eq_false] at hacc ⊢
        rw [hacc, hpt]
        rcases hptr : pageTexts rest with _ | ⟨x, xs⟩
        · simp [blankLineJoin]
        · simp [blankLineJoin]

/-- The number of non-whitespace characters of a string: the acceptance
criterion as the specification words it (for comparison with the source's
trimmed-length test, which also counts interior whitespace). -/
def nonWhitespaceCount (l : Str) : Nat := (l.filter (fun c => !goIsSpace c)).length

/-- Counterexample to claim C5 as stated: the embedded text "a b c d e f" has
11 characters after trimming (so the source accepts it without OCR) but only 6
non-whitespace characters, not more than 10 — the claimed "more than 10
non-whitespace characters" criterion would demand the OCR fallback here. -/
theorem extractTextFromPDF_nonwhitespace_counterexample :
    extractTextFromPDF (.ok (str "a b c d e f")) 300 [.ok (str "PAGE ONE TEXT")] =
      .embedded (str "a b c d e f") ∧
    ¬ 10 < nonWhitespaceCount (str "a b c d e f") := by decide

/-- Claim C5 (amended): for every PDF whose embedded-text extraction succeeds,
`ExtractTextFromPDF` returns the embedded text without OCR exactly when that
text, after trimming leading and trailing whitespace, is longer than 10
characters (interior whitespace included — an 11-character embedded string is
accepted); otherwise it falls back to rasterising each page at the configured
DPI (defaulting to 300 when non-positive) and concatenating the non-empty
per-page vision OCR results with a blank-line separator, skipping pages whose
OCR fails. -/
theorem extractTextFromPDF_fallback_spec (txt : Str) (e : String) (dpi : Int)
    (pages : List (Except String Str)) :
    (extractTextFromPDF (.ok txt) dpi pages =
      if 10 < (goTrimSpace txt).length then .embedded txt
      else .ocr ⟨if dpi ≤ 0 then 300 else dpi, blankLineJoin (pageTexts pages)⟩) ∧
    (extractTextFromPDF (.error e) dpi pages =
      .ocr ⟨if dpi ≤ 0 then 300 else dpi, blankLineJoin (pageTexts pages)⟩) ∧
    ((extractTextFromPDF (.ok txt) dpi pages = .embedded txt) ↔
      10 < (goTrimSpace txt).length) := by
  have hvis : extractTextFromPDFVision (if dpi ≤ 0 then 300 else dpi) pages =
      ⟨if dpi ≤ 0 then 300 else dpi, blankLineJoin (pageTexts pages)⟩ := by
    by_cases hd : dpi ≤ 0 <;>
      simp [extractTextFromPDFVision, visionPageFold_eq_join, hd]
  refine ⟨?_, ?_, ?_⟩
  · by_cases h : 10 < (goTrimSpace txt).length <;> simp [extractTextFromPDF, h, hvis]
  · simp [extractTextFromPDF, hvis]
  · constructor
    · intro he
      by_contra h
      simp [extractTextFromPDF, h, hvis] at he
    · intro h
      simp [extractTextFromPDF, h]

/-!
## JSON extraction from model responses (src/unnamed/part_002,
`extractJSONFromGemini` lines 245-289 and the array-wrapping of
`analyzeDocumentWithRetry` lines 226-239)

Brace characters and the backquote are written via their code points so that
the embedding text stays plain.
-/

/-- The character U+007B (opening brace). -/
def lbrace : Char := Char.ofNat 123

/-- The character U+007D (closing brace). -/
def rbrace : Char := Char.ofNat 125

/-- The character U+0060 (backquote). -/
def backquote : Char := Char.ofNat 96

/-- The three-backquote markdown fence. -/
def fence : Str := [backquote, backquote, backquote]

/-- The markdown fence with the `json` language tag. -/
def fenceJson : Str := fence ++ ['j', 's', 'o', 'n']

/-- Characters other than the two JSON openers scanned for by
`strings.IndexAny(content, "{[")`. -/
def notBrace (c : Char) : Bool := !(c = lbrace || c = '[')

/-- The bracket-counting scan of `extractJSONFromGemini` (lines 271-282):
starting at the first opener, increment on `op`, decrement on `cl`, and stop
(inclusively) where the count returns to zero; `none` when it never does. -/
def scanBal (op cl : Char) : Str → Int → Option Str
  | [], _ => none
  | c :: cs, cnt =>
    if c = op then (scanBal op cl cs (cnt + 1)).map (fun r => c :: r)
    else if c = cl then
      (if cnt - 1 = 0 then some [c]
       else (scanBal op cl cs (cnt - 1)).map (fun r => c :: r))
    else (scanBal op cl cs cnt).map (fun r => c :: r)

/-- The scan-and-slice tail of `extractJSONFromGemini` (lines 256-288): find
the first opener, choose the bracket pair from it, take the first balanced
block, trim it; empty when there is no opener or the count never closes. -/
def extractScan (c2 : Str) : Str :=
  match c2.dropWhile notBrace with
  | [] => []
  | c :: rest =>
    let oc : Char × Char := if c = lbrace then (lbrace, rbrace) else ('[', ']')
    match scanBal oc.1 oc.2 (c :: rest) 0 with
    | none => []
    | some r => goTrimSpace r

/-- `extractJSONFromGemini`: trim, strip a leading markdown fence (with or
without the `json` tag) and its closing fence, then scan for the first
balanced JSON block. -/
def extractJSONFromGemini (content : Str) : Str :=
  let c1 := goTrimSpace content
  let c2 :=
    if fenceJson.isPrefixOf c1 then goTrimSuf fence (c1.drop fenceJson.length)
    else if fence.isPrefixOf c1 then goTrimSuf fence (c1.drop fence.length)
    else c1
  extractScan c2

/-- A payload exactly consumed by the bracket-counting scan: it starts with
the opener, ends with the closer, and the scan closes precisely at its end. -/
@[reducible]
def GoodPayload (op cl : Char) (p : Str) : Prop :=
  p.head? = some op ∧ p.getLast? = some cl ∧ scanBal op cl p 0 = some p

/-- A response wrapping the payload in a ```json fence. -/
def fenceWrap (p : Str) : Str := fenceJson ++ (('\n' :: p) ++ ('\n' :: fence))

/-- Leading prose preceding a payload. -/
def proseDemo : Str := ['R', 'e', 's', 'u', 'l', 't', ':', ' ']

/-- A response with leading prose before the payload. -/
def proseWrap (p : Str) : Str := proseDemo ++ p

theorem dropWhile_id_of_head (pr : Char → Bool) (l : Str)
    (h : ∀ c, l.head? = some c → pr c = false) : l.dropWhile pr = l := by
  cases l with
  | nil => rfl
  | cons a t => simp [List.dropWhile_cons, h a rfl]

theorem goTrimSpace_eq_self (l : Str)
    (h1 : ∀ c, l.head? = some c → goIsSpace c = false)
    (h2 : ∀ c, l.getLast? = some c → goIsSpace c = false) : goTrimSpace l = l := by
  unfold goTrimSpace
  rw [dropWhile_id_of_head _ l h1]
  rw [dropWhile_id_of_head _ l.reverse ?hr, List.reverse_reverse]
  case hr =>
    intro c hc
    apply h2
    rwa [List.head?_reverse] at hc

theorem scanBal_append (op cl : Char) (p : Str) :
    ∀ (post : Str) (cnt : Int) (r : Str),
      scanBal op cl p cnt = some r → scanBal op cl (p ++ post) cnt = some r := by
  induction p with
  | nil => intro post cnt r h; simp [scanBal] at h
  | cons c cs ih =>
    intro post cnt r h
    simp only [scanBal, List.cons_append, List.append_eq] at h ⊢
    by_cases h1 : c = op
    · rw [if_pos h1] at h ⊢
      obtain ⟨r', hr', rfl⟩ := Option.map_eq_some'.mp h
      rw [ih post (cnt + 1) r' hr']
      rfl
    · rw [if_neg h1] at h ⊢
      by_cases h2 : c = cl
      · rw [if_pos h2] at h ⊢
        by_cases h3 : cnt - 1 = 0
        · rw [if_pos h3] at h ⊢; exact h
        · rw [if_neg h3] at h ⊢
          obtain ⟨r', hr', rfl⟩ := Option.map_eq_some'.mp h
          rw [ih post (cnt - 1) r' hr']
          rfl
      · rw [if_neg h2] at h ⊢
        obtain ⟨r', hr', rfl⟩ := Option.map_eq_some'.mp h
        rw [ih post cnt r' hr']
        rfl

theorem extractScan_payload (op cl : Char) (p' post : Str) (c2 : Str)
    (hdrop : c2.dropWhile notBrace = op :: (p' ++ post))
    (hoc : (if op = lbrace then ((lbrace, rbrace) : Char × Char) else ('[', ']')) = (op, cl))
    (hscan2 : scanBal op cl (op :: (p' ++ post)) 0 = some (op :: p'))
    (htrimP : goTrimSpace (op :: p') = op :: p') :
    extractScan c2 = op :: p' := by
  unfold extractScan
  rw [hdrop]
  simp only [hoc]
  rw [hscan2]
  exact htrimP

theorem extract_recovers_aux (op cl : Char) (p' : Str)
    (hop_ns : goIsSpace op = false) (hcl_ns : goIsSpace cl = false)
    (hop_nb : notBrace op = false)
    (hnl_nb : notBrace '\n' = true)
    (hoc : (if op = lbrace then ((lbrace, rbrace) : Char × Char) else ('[', ']')) = (op, cl))
    (hfj : fenceJson.isPrefixOf (proseWrap (op :: p')) = false)
    (hf : fence.isPrefixOf (proseWrap (op :: p')) = false)
    (hl : (op :: p').getLast? = some cl)
    (hscan : scanBal op cl (op :: p') 0 = some (op :: p')) :
    extractJSONFromGemini (fenceWrap (op :: p')) = op :: p' ∧
    extractJSONFromGemini (proseWrap (op :: p')) = op :: p' := by
  have hbq_ns : goIsSpace backquote = false := by decide
  have htrimP : goTrimSpace (op :: p') = op :: p' := by
    apply goTrimSpace_eq_self
    · intro c hc
      simp only [List.head?_cons, Option.some.injEq] at hc
      rw [← hc]; exact hop_ns
    · intro c hc
      rw [hl] at hc
      injection hc with hc
      rw [← hc]; exact hcl_ns
  constructor
  · -- fence-wrapped payload
    have htrim : goTrimSpace (fenceWrap (op :: p')) = fenceWrap (op :: p') := by
      apply goTrimSpace_eq_self
      · intro c hc
        simp only [fenceWrap, fenceJson, fence, List.cons_append, List.append_assoc,
          List.head?_cons, Option.some.injEq] at hc
        rw [← hc]; exact hbq_ns
      · intro c hc
        have hne : ('\n' :: fence) ≠ [] := by simp
        have hne2 : (('\n' :: (op :: p')) ++ ('\n' :: fence)) ≠ [] := by simp
        rw [fenceWrap, List.getLast?_append_of_ne_nil _ hne2,
          List.getLast?_append_of_ne_nil _ hne] at hc
        simp only [fence, List.getLast?_cons_cons, List.getLast?_singleton,
          Option.some.injEq] at hc
        rw [← hc]; exact hbq_ns
    have hpre1 : fenceJson.isPrefixOf (fenceWrap (op :: p')) = true :=
      List.isPrefixOf_iff_prefix.mpr ⟨_, rfl⟩
    have hdrop1 : (fenceWrap (op :: p')).drop fenceJson.length =
        ('\n' :: (op :: p')) ++ ('\n' :: fence) := List.drop_left _ _
    have hsuf : goTrimSuf fence (('\n' :: (op :: p')) ++ ('\n' :: fence)) =
        ('\n' :: (op :: p')) ++ ['\n'] := by
      have hre : ('\n' :: (op :: p')) ++ ('\n' :: fence) =
          (('\n' :: (op :: p')) ++ ['\n']) ++ fence := by simp
      rw [hre]
      unfold goTrimSuf
      rw [if_pos (List.isSuffixOf_iff_suffix.mpr ⟨_, rfl⟩)]
      rw [List.length_append, Nat.add_sub_cancel, List.take_left]
    have hdw : (('\n' :: (op :: p')) ++ ['\n']).dropWhile notBrace =
        op :: (p' ++ ['\n']) := by
      simp only [List.cons_append, List.dropWhile_cons, hnl_nb, hop_nb, if_true, if_false,
        Bool.true_eq_false, Bool.false_eq_true, ite_false, ite_true]
    have hscan2 : scanBal op cl (op :: (p' ++ ['\n'])) 0 = some (op :: p') := by
      have := scanBal_append op cl (op :: p') ['\n'] 0 (op :: p') hscan
      simpa using this
    show extractScan _ = _
    rw [htrim, if_pos hpre1, hdrop1, hsuf]
    exact extractScan_payload op cl p' ['\n'] _ hdw hoc hscan2 htrimP
  · -- prose-prefixed payload
    have htrim : goTrimSpace (proseWrap (op :: p')) = proseWrap (op :: p') := by
      apply goTrimSpace_eq_self
      · intro c hc
        simp only [proseWrap, proseDemo, List.cons_append, List.head?_cons,
          Option.some.injEq] at hc
        rw [← hc]; decide
      · intro c hc
        have hne : (op :: p') ≠ [] := by simp
        rw [proseWrap, List.getLast?_append_of_ne_nil _ hne, hl] at hc
        injection hc with hc
        rw [← hc]; exact hcl_ns
    have hdw : (proseWrap (op :: p')).dropWhile notBrace = op :: (p' ++ []) := by
      simp +decide only [proseWrap, proseDemo, List.cons_append, List.nil_append,
        List.dropWhile_cons, hop_nb, List.append_nil, Bool.false_eq_true, if_false,
        ite_false, if_true, ite_true]
    have hscan2 : scanBal op cl (op :: (p' ++ [])) 0 = some (op :: p') := by
      simpa using hscan
    show extractScan _ = _
    rw [htrim, if_neg ?hn1, if_neg ?hn2]
    case hn1 => rw [hfj]; exact Bool.false_ne_true
    case hn2 => rw [hf]; exact Bool.false_ne_true
    exact extractScan_payload op cl p' [] _ hdw hoc hscan2 htrimP

/-- The array-to-object wrapping of `analyzeDocumentWithRetry` (lines 234-238):
index each element and key it `item_<i>`. -/
def wrapArray {α : Type} (xs : List α) : List (String × α) :=
  xs.enum.map (fun iv => ("item_" ++ toString iv.1, iv.2))

/-- The object/array resolution of the parsed payload (lines 226-239),
parameterised by the outcomes of the two `json.Unmarshal` attempts: an object
parse is used as is; otherwise an array parse is wrapped into an object with
positional keys; otherwise the call fails. -/
def geminiResultMap {α : Type} (tryObj : Option (List (String × α)))
    (tryArr : Option (List α)) : Option (List (String × α)) :=
  match tryObj with
  | some m => some m
  | none =>
    match tryArr with
    | some arr => some (wrapArray arr)
    | none => none

/-- Claim C6: the JSON-extraction scanner recovers every balanced payload from
a ```json fence and from leading prose — scanning for the first balanced
`{...}` or `[...]` block by bracket counting — both for object and for array
payloads, and an array parse is wrapped into an object keyed by position
(`item_0`, `item_1`, ...), so the resolved result is always a map. -/
theorem extractJSONFromGemini_recovers {α : Type} (p q : Str) (xs : List α)
    (hp : GoodPayload lbrace rbrace p) (hq : GoodPayload '[' ']' q) :
    extractJSONFromGemini (fenceWrap p) = p ∧
    extractJSONFromGemini (proseWrap p) = p ∧
    extractJSONFromGemini (fenceWrap q) = q ∧
    extractJSONFromGemini (proseWrap q) = q ∧
    geminiResultMap (none : Option (List (String × α))) (some xs) = some (wrapArray xs) ∧
    (wrapArray xs).map Prod.fst =
      (List.range xs.length).map (fun i => "item_" ++ toString i) := by
  obtain ⟨hph, hpl, hps⟩ := hp
  obtain ⟨hqh, hql, hqs⟩ := hq
  obtain ⟨p', rfl⟩ : ∃ p', p = lbrace :: p' := by
    cases p with
    | nil => simp at hph
    | cons a t =>
      simp only [List.head?_cons, Option.some.injEq] at hph
      exact ⟨t, by rw [hph]⟩
  obtain ⟨q', rfl⟩ : ∃ q', q = '[' :: q' := by
    cases q with
    | nil => simp at hqh
    | cons a t =>
      simp only [List.head?_cons, Option.some.injEq] at hqh
      exact ⟨t, by rw [hqh]⟩
  have hP := extract_recovers_aux lbrace rbrace p' (by decide) (by decide) (by decide)
    (by decide) (by decide) rfl rfl hpl hps
  have hQ := extract_recovers_aux '[' ']' q' (by decide) (by decide) (by decide)
    (by decide) (by decide) rfl rfl hql hqs
  refine ⟨hP.1, hP.2, hQ.1, hQ.2, rfl, ?_⟩
  simp only [wrapArray, List.map_map]
  rw [show (Prod.fst ∘ fun iv : Nat × α => ("item_" ++ toString iv.1, iv.2)) =
      ((fun i => "item_" ++ toString i) ∘ Prod.fst) from rfl]
  rw [← List.map_map, List.enum_map_fst]

/-- A demonstration object payload (the literal `{"a":1}` built from
character codes). -/
def demoObjPayload : Str := [lbrace, '"', 'a', '"', ':', '1', rbrace]

/-- A demonstration array payload (the literal `[1, 2]`). -/
def demoArrPayload : Str := ['[', '1', ',', ' ', '2', ']']

/-- Witness for C6 at concrete payloads and a concrete array. -/
theorem extractJSONFromGemini_recovers_witness :
    GoodPayload lbrace rbrace demoObjPayload ∧
    GoodPayload '[' ']' demoArrPayload ∧
    (extractJSONFromGemini (fenceWrap demoObjPayload) = demoObjPayload ∧
     extractJSONFromGemini (proseWrap demoObjPayload) = demoObjPayload ∧
     extractJSONFromGemini (fenceWrap demoArrPayload) = demoArrPayload ∧
     extractJSONFromGemini (proseWrap demoArrPayload) = demoArrPayload ∧
     geminiResultMap (none : Option (List (String × Nat))) (some [7, 8]) =
       some (wrapArray [7, 8]) ∧
     (wrapArray [7, 8]).map Prod.fst =
       (List.range ([7, 8] : List Nat).length).map (fun i => "item_" ++ toString i)) :=
  ⟨by decide, by decide,
   extractJSONFromGemini_recovers demoObjPayload demoArrPayload [7, 8]
     (by decide) (by decide)⟩

/-!
## The aggregate record (src/unnamed/part_001, package models) and its
updaters (src/internal/analysis/types.go)

Go string-typed enums are modelled as `String` fields holding the enum's
string value (the Go zero value is `""`); `*MoneyVND` is `Option Int`;
`*time.Time` is `Option GoDate`; the `[5]MoneyVND` arrays are length-5 lists.
`map[string]interface{}` data extracted by the model is an association list of
`JValue`s, looked up by first match.
-/

/-- A calendar date as produced by Go `time.Parse("2006-01-02", s)`. -/
structure GoDate where
  year : Nat
  month : Nat
  day : Nat
deriving DecidableEq, Repr

/-- Day count of a month, with the Gregorian leap rule (as Go validates). -/
def daysInMonth (year month : Nat) : Nat :=
  if month = 2 then
    (if year % 4 = 0 ∧ (year % 100 ≠ 0 ∨ year % 400 = 0) then 29 else 28)
  else if month = 4 ∨ month = 6 ∨ month = 9 ∨ month = 11 then 30 else 31

/-- Go `time.Parse("2006-01-02", s)`: exactly `YYYY-MM-DD` with zero-padded
fields and a calendar-valid month and day. -/
def goParseDate (s : String) : Option GoDate :=
  match s.toList with
  | [y1, y2, y3, y4, h1, m1, m2, h2, d1, d2] =>
    if y1.isDigit && y2.isDigit && y3.isDigit && y4.isDigit && h1 = '-' &&
        m1.isDigit && m2.isDigit && h2 = '-' && d1.isDigit && d2.isDigit then
      let y := 1000 * (y1.toNat - 48) + 100 * (y2.toNat - 48) + 10 * (y3.toNat - 48) +
        (y4.toNat - 48)
      let m := 10 * (m1.toNat - 48) + (m2.toNat - 48)
      let d := 10 * (d1.toNat - 48) + (d2.toNat - 48)
      if 1 ≤ m ∧ m ≤ 12 ∧ 1 ≤ d ∧ d ≤ daysInMonth y m then some ⟨y, m, d⟩ else none
    else none
  | _ => none

/-- A decoded JSON value (`interface{}` after `json.Unmarshal`); numbers are
rationals standing in for `float64`. -/
inductive JValue where
  | jstr (s : String)
  | jnum (q : Rat)
  | jbool (b : Bool)
  | jarr (xs : List JValue)
  | jobj (fields : List (String × JValue))
  | jnull

/-- The extracted-data map handed to the aggregator. -/
abbrev JData := List (String × JValue)

/-- Map lookup (`data[key]`). -/
def jlookup (data : JData) (key : String) : Option JValue :=
  (data.find? (fun kv => kv.1 == key)).map (fun kv => kv.2)

/-- `data[key].(string)`: present and a string. -/
def jGetStr (data : JData) (key : String) : Option String :=
  match jlookup data key with
  | some (.jstr s) => some s
  | _ => none

/-- `data[key].(float64)`: present and a number. -/
def jGetNum (data : JData) (key : String) : Option Rat :=
  match jlookup data key with
  | some (.jnum q) => some q
  | _ => none

/-- `data[key].([]interface{})`: present and an array. -/
def jGetArr (data : JData) (key : String) : Option (List JValue) :=
  match jlookup data key with
  | some (.jarr xs) => some xs
  | _ => none

/-- Go `int64(f)` for `f : float64`: truncation toward zero. -/
def goFloatToInt (q : Rat) : Int := if 0 ≤ q then q.floor else q.ceil

/-- `models.GeneralCorporateInfo`. -/
structure GeneralCorporateInfo where
  clientName : String := ""
  clientType : String := ""
  taxCodeMST : String := ""
  businessLicenseGPKD : String := ""
  businessAddress : String := ""
  registeredShareCapital : Option Int := none
  customerType : String := ""
  businessOperations : String := ""
deriving DecidableEq, Repr

/-- `models.CorporateHistory`. -/
structure CorporateHistory where
  incorporationDate : Option GoDate := none
  historyDescription : String := ""
deriving DecidableEq, Repr

/-- `models.RelationshipBackground`. -/
structure RelationshipBackground where
  source : String := ""
deriving DecidableEq, Repr

/-- `models.OwnershipInfo`. -/
structure OwnershipInfo where
  ownersName : String := ""
  ownershipCategory : String := ""
  companyDirectorName : String := ""
  keyDecisionMaker : String := ""
deriving DecidableEq, Repr

/-- `models.CorporateInfo`. -/
structure CorporateInfo where
  general : GeneralCorporateInfo := {}
  history : CorporateHistory := {}
  relationship : RelationshipBackground := {}
  ownership : OwnershipInfo := {}
deriving DecidableEq, Repr

/-- `models.EVNInformation`. -/
structure EVNInformation where
  billingAddress : String := ""
  billingAddressMatchesClient : String := ""
  billingAmount : Option Int := none
  billedAmountsMatchExpenses : String := ""
deriving DecidableEq, Repr

/-- `models.LandOwnershipInformation`. -/
structure LandOwnershipInformation where
  situation : String := ""
  landownerIsSignatory : String := ""
  leaseExpirationDate : Option GoDate := none
  ownedDocsComplete : String := ""
deriving DecidableEq, Repr

/-- `models.LandInfo`. -/
structure LandInfo where
  evn : EVNInformation := {}
  ownership : LandOwnershipInformation := {}
deriving DecidableEq, Repr

/-- `models.PLInfo`. -/
structure PLInfo where
  totalRevenues : List Int := List.replicate 5 0
  totalCosts : List Int := List.replicate 5 0
  totalEnergyCosts : List Int := List.replicate 5 0
deriving DecidableEq, Repr

/-- `models.BalanceSheetInfo`. -/
structure BalanceSheetInfo where
  totalAssets : List Int := List.replicate 5 0
  totalDebt : List Int := List.replicate 5 0
deriving DecidableEq, Repr

/-- `models.LoanInfo`. -/
structure LoanInfo where
  loanType : String := ""
  debtClassification : String := ""
  outstandingAmount : Option Int := none
  annualInterestCost : Option Int := none
  annualAmortization : Option Int := none
  maturity : Option GoDate := none
  paymentHistory : String := ""
deriving DecidableEq, Repr

/-- `models.FinancialInfo`. -/
structure FinancialInfo where
  financialStatementDate : Option GoDate := none
  pl : PLInfo := {}
  balanceSheet : BalanceSheetInfo := {}
  loans : List LoanInfo := []
deriving DecidableEq, Repr

/-- `models.SiteVisit`. -/
structure SiteVisit where
  companySignboard : String := ""
deriving DecidableEq, Repr

/-- `models.AdditionalInfo`. -/
structure AdditionalInfo where
  siteVisit : SiteVisit := {}
deriving DecidableEq, Repr

/-- `models.CustomerCheck` (the aggregate record; `CheckCompletedAt` as an
integer timestamp). -/
structure CustomerCheck where
  checkCompletedAt : Option Int := none
  corporate : CorporateInfo := {}
  land : LandInfo := {}
  financial : FinancialInfo := {}
  additional : AdditionalInfo := {}
deriving DecidableEq, Repr

/-- `analysis.DocumentSource` (a Go string type). -/
abbrev DocumentSource := String

/-- `updateFromBusinessLicense` (types.go lines 48-132). -/
def updateFromBusinessLicense (info : CorporateInfo) (data : JData) : CorporateInfo :=
  let info := match jGetStr data "client_name" with
    | some v => { info with general.clientName := v }
    | none => info
  let info := match jGetStr data "client_type" with
    | some v =>
      match goToLowerS v with
      | "corporate_entity" => { info with general.clientType := "corporate_entity" }
      | "private_individual" => { info with general.clientType := "private_individual" }
      | _ => info
    | none => info
  let info := match jGetStr data "tax_code_mst" with
    | some v => { info with general.taxCodeMST := v }
    | none => info
  let info := match jGetStr data "business_license_gpkd" with
    | some v =>
      match goToLowerS v with
      | "yes" => { info with general.businessLicenseGPKD := "yes" }
      | "no" => { info with general.businessLicenseGPKD := "no" }
      | "na" | "n/a" => { info with general.businessLicenseGPKD := "na" }
      | _ => info
    | none => info
  let info := match jGetStr data "business_address" with
    | some v => { info with general.businessAddress := v }
    | none => info
  let info := match jGetNum data "registered_share_capital" with
    | some q => { info with general.registeredShareCapital := some (goFloatToInt q) }
    | none => info
  let info := match jGetStr data "business_operations" with
    | some v => { info with general.businessOperations := v }
    | none => info
  let info := match jGetStr data "customer_type" with
    | some v =>
      match v with
      | "manufacturing_production" =>
        { info with general.customerType := "manufacturing_production" }
      | "trading_commercial" => { info with general.customerType := "trading_commercial" }
      | "construction_real_estate" =>
        { info with general.customerType := "construction_real_estate" }
      | "services" => { info with general.customerType := "services" }
      | "agriculture_forestry_fishery" =>
        { info with general.customerType := "agriculture_forestry_fishery" }
      | "technology_it_software" =>
        { info with general.customerType := "technology_it_software" }
      | "energy_utilities" => { info with general.customerType := "energy_utilities" }
      | "finance_insurance_banking" =>
        { info with general.customerType := "finance_insurance_banking" }
      | "healthcare_pharmaceuticals" =>
        { info with general.customerType := "healthcare_pharmaceuticals" }
      | "media_entertainment" => { info with general.customerType := "media_entertainment" }
      | "na_private_individual" =>
        { info with general.customerType := "na_private_individual" }
      | _ => info
    | none => info
  let info := match jGetStr data "incorporation_date" with
    | some v =>
      match goParseDate v with
      | some d => { info with history.incorporationDate := some d }
      | none => info
    | none => info
  let info := match jGetStr data "owners_name" with
    | some v => { info with ownership.ownersName := v }
    | none => info
  let info := match jGetStr data "ownership_category" with
    | some v =>
      match v with
      | "100" => { info with ownership.ownershipCategory := "100" }
      | "gt_50" | ">50%" => { info with ownership.ownershipCategory := "gt_50" }
      | "lt_50" | "<50%" => { info with ownership.ownershipCategory := "lt_50" }
      | "na" | "n/a" => { info with ownership.ownershipCategory := "na" }
      | _ => info
    | none => info
  match jGetStr data "key_decision_maker" with
  | some v => { info with ownership.keyDecisionMaker := v }
  | none => info

/-- `updateFromEVNBill` (types.go lines 134-162).  In the source the explicit
"no" cases and the default case both assign No, so they are collapsed here. -/
def updateFromEVNBill (info : EVNInformation) (data : JData) : EVNInformation :=
  let info := match jGetStr data "billing_address" with
    | some v => { info with billingAddress := v }
    | none => info
  let info := match jGetStr data "billing_address_matches_client" with
    | some v =>
      let w := goToLowerS (goTrimSpaceS v)
      if w = "yes" ∨ w = "true" ∨ w = "1" then
        { info with billingAddressMatchesClient := "yes" }
      else { info with billingAddressMatchesClient := "no" }
    | none => info
  let info := match jGetNum data "billing_amount" with
    | some q => { info with billingAmount := some (goFloatToInt q) }
    | none => info
  match jGetStr data "billed_amounts_match_expenses" with
  | some v =>
    let w := goToLowerS (goTrimSpaceS v)
    if w = "yes" ∨ w = "true" ∨ w = "1" ∨ w = "match" ∨ w = "matches" then
      { info with billedAmountsMatchExpenses := "yes" }
    else { info with billedAmountsMatchExpenses := "no" }
  | none => info

/-- `updateFromLandCertificate` (types.go lines 165-209). -/
def updateFromLandCertificate (info : LandOwnershipInformation) (data : JData) :
    LandOwnershipInformation :=
  let info := match jGetStr data "situation" with
    | some v =>
      match goToLowerS v with
      | "land_owner" => { info with situation := "land_owner" }
      | "rental_agreement" => { info with situation := "rental_agreement" }
      | _ => { info with situation := "unknown" }
    | none => { info with situation := "unknown" }
  let info := match jGetStr data "landowner_is_signatory" with
    | some v =>
      let w := goToLowerS (goTrimSpaceS v)
      if w = "yes" ∨ w = "true" ∨ w = "1" then { info with landownerIsSignatory := "yes" }
      else if w = "no" ∨ w = "false" ∨ w = "0" then
        { info with landownerIsSignatory := "no" }
      else { info with landownerIsSignatory := "" }
    | none => info
  let info := match jGetStr data "documentation_complete" with
    | some v =>
      let w := goToLowerS (goTrimSpaceS v)
      if w = "yes" ∨ w = "true" ∨ w = "1" ∨ w = "complete" then
        { info with ownedDocsComplete := "yes" }
      else if w = "no" ∨ w = "false" ∨ w = "0" ∨ w = "incomplete" then
        { info with ownedDocsComplete := "no" }
      else { info with ownedDocsComplete := "" }
    | none => info
  match jGetStr data "lease_expiration_date" with
  | some v =>
    if v ≠ "0000-00-00" ∧ v ≠ "" then
      match goParseDate v with
      | some d => { info with leaseExpirationDate := some d }
      | none => info
    else info
  | none => info

/-- `updateFromIDCheck` (types.go lines 211-218). -/
def updateFromIDCheck (info : OwnershipInfo) (data : JData) : OwnershipInfo :=
  let info := match jGetStr data "company_director_name" with
    | some v => { info with companyDirectorName := v }
    | none => info
  match jGetStr data "key_decision_maker" with
  | some v => { info with keyDecisionMaker := v }
  | none => info

/-- `updateFromSiteVisit` (types.go lines 220-231). -/
def updateFromSiteVisit (info : SiteVisit) (data : JData) : SiteVisit :=
  match jGetStr data "company_signboard" with
  | some v =>
    match v with
    | "available_matches_client_info" =>
      { info with companySignboard := "available_matches_client_info" }
    | "available_does_not_match_client_info" =>
      { info with companySignboard := "available_does_not_match_client_info" }
    | "not_available_or_not_checked" =>
      { info with companySignboard := "not_available_or_not_checked" }
    | _ => info
  | none => info

/-- One `[5]MoneyVND` row update: positions holding a number are overwritten,
the rest keep their previous value. -/
def updateMoneyRow (old : List Int) (vs : List JValue) : List Int :=
  (old.zip vs).map
    (fun ov =>
      match ov.2 with
      | .jnum q => goFloatToInt q
      | _ => ov.1)

/-- `updateFromFinancialStatement` (types.go lines 233-278). -/
def updateFromFinancialStatement (info : FinancialInfo) (data : JData) : FinancialInfo :=
  let info := match jGetStr data "financial_statement_date" with
    | some v =>
      match goParseDate v with
      | some d => { info with financialStatementDate := some d }
      | none => info
    | none => info
  let info := match jGetArr data "total_revenues" with
    | some vs =>
      if vs.length = 5 then
        { info with pl.totalRevenues := updateMoneyRow info.pl.totalRevenues vs }
      else info
    | none => info
  let info := match jGetArr data "total_costs" with
    | some vs =>
      if vs.length = 5 then
        { info with pl.totalCosts := updateMoneyRow info.pl.totalCosts vs }
      else info
    | none => info
  let info := match jGetArr data "total_energy_costs" with
    | some vs =>
      if vs.length = 5 then
        { info with pl.totalEnergyCosts := updateMoneyRow info.pl.totalEnergyCosts vs }
      else info
    | none => info
  let info := match jGetArr data "total_assets" with
    | some vs =>
      if vs.length = 5 then
        { info with balanceSheet.totalAssets :=
            updateMoneyRow info.balanceSheet.totalAssets vs }
      else info
    | none => info
  match jGetArr data "total_debt" with
  | some vs =>
    if vs.length = 5 then
      { info with balanceSheet.totalDebt := updateMoneyRow info.balanceSheet.totalDebt vs }
    else info
  | none => info

/-- One loan record built from a loans-array element
(`updateFromCICReport`, types.go lines 284-367). -/
def buildLoanInfo (loanMap : JData) : LoanInfo :=
  let paymentHistory :=
    match jGetStr loanMap "payment_history" with
    | some v => v
    | none => "No payment history found"
  let loanType :=
    match jGetStr loanMap "loan_type" with
    | some v =>
      match goToLowerS v with
      | "short_term_loan" => "short_term_loan"
      | "medium_term_loan" => "medium_term_loan"
      | "long_term_loan" => "long_term_loan"
      | "credit_card" => "credit_card"
      | "overdrafts" => "overdrafts"
      | "guarantee" => "guarantee"
      | "financial_leasing" => "financial_leasing"
      | "factoring" => "factoring"
      | "consumer_loan" => "consumer_loan"
      | _ => "other_credit_facility"
    | none => "other_credit_facility"
  let debtClass :=
    match jGetStr loanMap "debt_classification" with
    | some v =>
      match goToLowerS v with
      | "group_2_special_mention_debt" => "group_2_special_mention_debt"
      | "group_3_substandard_debt" => "group_3_substandard_debt"
      | "group_4_doubtful_debt" => "group_4_doubtful_debt"
      | "group_5_loss_debt" => "group_5_loss_debt"
      | _ => "group_1_current_debt"
    | none => "group_1_current_debt"
  let outstanding :=
    match jGetNum loanMap "outstanding_amount" with
    | some q => if 0 < q then some (goFloatToInt q) else some 0
    | none => some (0 : Int)
  let interest :=
    match jGetNum loanMap "annual_interest_cost" with
    | some q => if 0 < q then some (goFloatToInt q) else some 0
    | none => some (0 : Int)
  let amort :=
    match jGetNum loanMap "annual_amortization" with
    | some q => if 0 < q then some (goFloatToInt q) else some 0
    | none => some (0 : Int)
  let maturity :=
    match jGetStr loanMap "maturity" with
    | some v =>
      if v ≠ "0000-00-00" ∧ v ≠ "" then
        match goParseDate v with
        | some d => some d
        | none => none
      else none
    | none => none
  { loanType := loanType
    debtClassification := debtClass
    outstandingAmount := outstanding
    annualInterestCost := interest
    annualAmortization := amort
    maturity := maturity
    paymentHistory := paymentHistory }

/-- `updateFromCICReport` (types.go lines 280-371): append one loan per
object element of the `loans` array.  (The source also receives the corporate
history sub-record but never writes it.) -/
def updateFromCICReport (loans : List LoanInfo) (data : JData) : List LoanInfo :=
  match jGetArr data "loans" with
  | some loansData =>
    loansData.foldl
      (fun acc ld =>
        match ld with
        | .jobj m => acc ++ [buildLoanInfo m]
        | _ => acc)
      loans
  | none => loans

/-- `UpdateCustomerCheck` (types.go lines 29-46): dispatch on the document
source; any unmapped source leaves the record unchanged. -/
def updateCustomerCheck (check : CustomerCheck) (extractedData : JData)
    (source : DocumentSource) : CustomerCheck :=
  if source = "business_license" then
    { check with corporate := updateFromBusinessLicense check.corporate extractedData }
  else if source = "evn_bill" then
    { check with land.evn := updateFromEVNBill check.land.evn extractedData }
  else if source = "land_certificate" then
    { check with land.ownership := updateFromLandCertificate check.land.ownership extractedData }
  else if source = "id_check" then
    { check with corporate.ownership := updateFromIDCheck check.corporate.ownership extractedData }
  else if source = "site_visit_photos" then
    { check with additional.siteVisit := updateFromSiteVisit check.additional.siteVisit extractedData }
  else if source = "financial_statement" then
    { check with financial := updateFromFinancialStatement check.financial extractedData }
  else if source = "cic_report" then
    { check with financial.loans := updateFromCICReport check.financial.loans extractedData }
  else check

/-- The seven document sources `UpdateCustomerCheck` maps to a sub-record. -/
def mappedSources : List DocumentSource :=
  ["business_license", "evn_bill", "land_certificate", "id_check",
   "site_visit_photos", "financial_statement", "cic_report"]

/-- Claim C9: for every record and every extracted-data map, calling
`UpdateCustomerCheck` with a `DocumentSource` outside the seven mapped kinds
(for example "unknown" or "cic_report_2") leaves every field of the record
unchanged. -/
theorem updateCustomerCheck_unmapped_source_frame (check : CustomerCheck) (data : JData)
    (source : DocumentSource) (h : source ∉ mappedSources) :
    updateCustomerCheck check data source = check := by
  simp only [mappedSources, List.mem_cons, List.not_mem_nil, or_false, not_or] at h
  obtain ⟨h1, h2, h3, h4, h5, h6, h7⟩ := h
  simp [updateCustomerCheck, h1, h2, h3, h4, h5, h6, h7]

/-- Witness for C9 at the unmapped source "cic_report_2" with non-trivial
extracted data. -/
theorem updateCustomerCheck_unmapped_source_frame_witness :
    ("cic_report_2" ∉ mappedSources) ∧
    updateCustomerCheck {} [("client_name", JValue.jstr "ACME")] "cic_report_2" = {} :=
  ⟨by decide,
   updateCustomerCheck_unmapped_source_frame {} [("client_name", JValue.jstr "ACME")]
     "cic_report_2" (by decide)⟩

/-!
## Address comparison (src/internal/analysis/types.go, `CompareAddresses`,
`addressesMatch`, `normalizeAddress`)
-/

/-- The abbreviation substitutions of `normalizeAddress`.  Go iterates its
replacement map in unspecified order; this embedding fixes the order in which
the source lists the entries, and every theorem below uses this order
uniformly. -/
def normalizeAddressReplacements : List (Str × Str) :=
  [(str "ho chi minh city", str "hcmc"), (str "ho chi minh", str "hcmc"),
   (str "tp. ho chi minh", str "hcmc"), (str "tp ho chi minh", str "hcmc"),
   (str "thanh pho ho chi minh", str "hcmc"),
   (str "quan", str "q"), (str "phuong", str "p"), (str "to", str "t"),
   (str "ap", str "a")]

/-- Fuelled version of the `for strings.Contains(normalized, "  ")` loop: each
productive pass shrinks the string, so `l.length` passes always reach the
fixed point. -/
def collapseSpacesFuel : Nat → Str → Str
  | 0, l => l
  | fuel + 1, l =>
    if goContains l (str "  ") then
      collapseSpacesFuel fuel (goReplaceAll (str "  ") (str " ") l)
    else l

/-- Replace runs of spaces by single spaces until none are left. -/
def collapseSpaces (l : Str) : Str := collapseSpacesFuel l.length l

/-- `normalizeAddress` (types.go lines 528-559): abbreviation substitutions,
punctuation removal, space collapsing, final trim. -/
def normalizeAddress (address : Str) : Str :=
  let n := normalizeAddressReplacements.foldl
    (fun acc fr => goReplaceAll fr.1 fr.2 acc) address
  let n := goReplaceAll (str ",") [] n
  let n := goReplaceAll (str ".") [] n
  let n := goReplaceAll (str "-") [] n
  let n := goReplaceAll (str "_") [] n
  goTrimSpace (collapseSpaces n)

/-- The word-overlap count of `addressesMatch` (types.go lines 503-511): the
number of words of `ws1` that also occur in `ws2` and are longer than two
characters. -/
def wordMatches (ws1 ws2 : List Str) : Nat :=
  (ws1.filter (fun w1 => decide (2 < w1.length) && ws2.contains w1)).length

/-- The shared-word test of `addressesMatch` (lines 496-522): both word lists
non-empty and the overlap count strictly above half the larger list
(`float64(matches)/float64(maxWords) > 0.5`; the rationals involved are small
enough that the Go float division decides exactly this). -/
def addrOverlapMatch (addr1 addr2 : Str) : Bool :=
  let words1 := goFields addr1
  let words2 := goFields addr2
  if 0 < words1.length ∧ 0 < words2.length then
    decide (max words1.length words2.length < 2 * wordMatches words1 words2)
  else false

/-- `addressesMatch` (types.go lines 472-525): lowercase + trim, exact match,
normalized match, substring containment of the normalized forms, then the
word-overlap test. -/
def addressesMatch (address1 address2 : Str) : Bool :=
  let addr1 := goToLower (goTrimSpace address1)
  let addr2 := goToLower (goTrimSpace address2)
  if addr1 = addr2 then true
  else
    let n1 := normalizeAddress addr1
    let n2 := normalizeAddress addr2
    if n1 = n2 then true
    else if goContains n1 n2 || goContains n2 n1 then true
    else addrOverlapMatch n1 n2

/-- `CompareAddresses` (types.go lines 440-469): when both addresses are
non-empty, decide the match flag by the semantic (Gemini) comparison, falling
back to `addressesMatch` when that call fails; otherwise leave the record
unchanged.  The Gemini outcome is a parameter. -/
def compareAddresses (geminiResult : Except String Bool) (check : CustomerCheck) :
    CustomerCheck :=
  if check.corporate.general.businessAddress ≠ "" ∧
      check.land.evn.billingAddress ≠ "" then
    match geminiResult with
    | .ok b =>
      { check with land.evn.billingAddressMatchesClient := if b then "yes" else "no" }
    | .error _ =>
      { check with land.evn.billingAddressMatchesClient :=
          if (addressesMatch check.corporate.general.businessAddress.toList
              check.land.evn.billingAddress.toList) then "yes" else "no" }
  else check

theorem addressesMatch_decomposition (a b : Str) :
    addressesMatch a b =
      (decide (goToLower (goTrimSpace a) = goToLower (goTrimSpace b)) ||
       decide (normalizeAddress (goToLower (goTrimSpace a)) =
         normalizeAddress (goToLower (goTrimSpace b))) ||
       goContains (normalizeAddress (goToLower (goTrimSpace a)))
         (normalizeAddress (goToLower (goTrimSpace b))) ||
       goContains (normalizeAddress (goToLower (goTrimSpace b)))
         (normalizeAddress (goToLower (goTrimSpace a))) ||
       addrOverlapMatch (normalizeAddress (goToLower (goTrimSpace a)))
         (normalizeAddress (goToLower (goTrimSpace b)))) := by
  unfold addressesMatch
  by_cases h1 : goToLower (goTrimSpace a) = goToLower (goTrimSpace b)
  · simp [h1]
  · rw [if_neg h1]
    by_cases h2 : normalizeAddress (goToLower (goTrimSpace a)) =
        normalizeAddress (goToLower (goTrimSpace b))
    · simp [h1, h2]
    · rw [if_neg h2]
      by_cases h3 : (goContains (normalizeAddress (goToLower (goTrimSpace a)))
          (normalizeAddress (goToLower (goTrimSpace b))) ||
        goContains (normalizeAddress (goToLower (goTrimSpace b)))
          (normalizeAddress (goToLower (goTrimSpace a)))) = true
      · simp [h1, h2, h3]
      · simp only [Bool.not_eq_true] at h3
        simp [h1, h2, h3]

theorem addressesMatch_refl (a : Str) : addressesMatch a a = true := by
  unfold addressesMatch
  simp

/-- The fallback decision procedure exactly as claim C7 words it (second
definition, following the claim and not the source, for comparison): exact
match, then substring containment, then at-least-50% shared-word ratio. -/
def claimAddressesMatch (a b : Str) : Bool :=
  let addr1 := goToLower (goTrimSpace a)
  let addr2 := goToLower (goTrimSpace b)
  decide (addr1 = addr2) || goContains addr1 addr2 || goContains addr2 addr1 ||
    (let ws1 := goFields addr1
     let ws2 := goFields addr2
     decide (0 < ws1.length) && decide (0 < ws2.length) &&
       decide (max ws1.length ws2.length ≤ 2 * wordMatches ws1 ws2))

/-- Counterexample to claim C7 as stated.  (1) At a shared-word ratio of
exactly 50% ("alpha beta" vs "alpha gamma") the code does not match — it
requires a ratio strictly above 50% — while the claimed at-least-50% rule
does.  (2) The code also matches through an abbreviation-normalization
equality step the claimed exact/containment/ratio chain does not have:
"quan 1" vs "q 1" matches in the code but under no clause of the claimed
chain. -/
theorem addressesMatch_fallback_counterexample :
    (addressesMatch (str "alpha beta") (str "alpha gamma") = false ∧
     claimAddressesMatch (str "alpha beta") (str "alpha gamma") = true) ∧
    (addressesMatch (str "quan 1") (str "q 1") = true ∧
     claimAddressesMatch (str "quan 1") (str "q 1") = false) := by decide

/-- Claim C7 (amended): whenever both the business address and the billing
address are non-empty and the semantic (Gemini) comparison fails for any
reason, the deterministic fallback decides the billing-address match flag and
always sets it to yes or no (never leaves it ambiguous); the flag is yes
exactly when `addressesMatch` holds, which decides by case-insensitive exact
match, then equality after abbreviation-normalization, then substring
containment between the normalized forms, then a shared-word ratio strictly
above 50% counting only words longer than two characters; exact-string inputs
match and inputs with disjoint content do not match. -/
theorem compareAddresses_fallback_decides (g : String) (check : CustomerCheck)
    (hbus : check.corporate.general.businessAddress ≠ "")
    (hbill : check.land.evn.billingAddress ≠ "") :
    ((compareAddresses (.error g) check).land.evn.billingAddressMatchesClient = "yes" ∨
     (compareAddresses (.error g) check).land.evn.billingAddressMatchesClient = "no") ∧
    ((compareAddresses (.error g) check).land.evn.billingAddressMatchesClient = "yes" ↔
      addressesMatch check.corporate.general.businessAddress.toList
        check.land.evn.billingAddress.toList = true) ∧
    (∀ x y : Str, addressesMatch x y =
      (decide (goToLower (goTrimSpace x) = goToLower (goTrimSpace y)) ||
       decide (normalizeAddress (goToLower (goTrimSpace x)) =
         normalizeAddress (goToLower (goTrimSpace y))) ||
       goContains (normalizeAddress (goToLower (goTrimSpace x)))
         (normalizeAddress (goToLower (goTrimSpace y))) ||
       goContains (normalizeAddress (goToLower (goTrimSpace y)))
         (normalizeAddress (goToLower (goTrimSpace x))) ||
       addrOverlapMatch (normalizeAddress (goToLower (goTrimSpace x)))
         (normalizeAddress (goToLower (goTrimSpace y))))) ∧
    (∀ x : Str, addressesMatch x x = true) ∧
    addressesMatch (str "123 nguyen van linh") (str "99 le duan") = false := by
  have hc : compareAddresses (.error g) check =
      { check with land.evn.billingAddressMatchesClient :=
          if (addressesMatch check.corporate.general.businessAddress.toList
              check.land.evn.billingAddress.toList) then "yes" else "no" } := by
    unfold compareAddresses
    rw [if_pos ⟨hbus, hbill⟩]
  refine ⟨?_, ?_, addressesMatch_decomposition, addressesMatch_refl, by decide⟩
  · rw [hc]
    by_cases hm : addressesMatch check.corporate.general.businessAddress.toList
        check.land.evn.billingAddress.toList = true
    · have hm2 : addressesMatch check.corporate.general.businessAddress.data
          check.land.evn.billingAddress.data = true := hm
      left; simp [hm2]
    · simp only [Bool.not_eq_true] at hm
      have hm2 : addressesMatch check.corporate.general.businessAddress.data
          check.land.evn.billingAddress.data = false := hm
      right; simp [hm2]
  · rw [hc]
    by_cases hm : addressesMatch check.corporate.general.businessAddress.toList
        check.land.evn.billingAddress.toList = true
    · have hm2 : addressesMatch check.corporate.general.businessAddress.data
          check.land.evn.billingAddress.data = true := hm
      simp [hm, hm2]
    · simp only [Bool.not_eq_true] at hm
      have hm2 : addressesMatch check.corporate.general.businessAddress.data
          check.land.evn.billingAddress.data = false := hm
      simp [hm, hm2]

/-- Witness for C7 at a concrete record with both addresses present and a
failing Gemini call. -/
theorem compareAddresses_fallback_decides_witness :
    (({ corporate := { general := { businessAddress := "12 Alpha Road" } },
        land := { evn := { billingAddress := "12 Alpha Road" } } } :
        CustomerCheck).corporate.general.businessAddress ≠ "") ∧
    ((compareAddresses (.error "timeout")
        { corporate := { general := { businessAddress := "12 Alpha Road" } },
          land := { evn := { billingAddress := "12 Alpha Road" } } }).land.evn.billingAddressMatchesClient = "yes" ∨
     (compareAddresses (.error "timeout")
        { corporate := { general := { businessAddress := "12 Alpha Road" } },
          land := { evn := { billingAddress := "12 Alpha Road" } } }).land.evn.billingAddressMatchesClient = "no") :=
  ⟨by decide,
   (compareAddresses_fallback_decides "timeout"
      { corporate := { general := { businessAddress := "12 Alpha Road" } },
        land := { evn := { billingAddress := "12 Alpha Road" } } }
      (by decide) (by decide)).1⟩

/-- Counterexample to claim C10 as stated: `addressesMatch` is not symmetric.
The duplicated word "alpha" is counted twice when scanning the longer list but
only once when scanning the shorter one, so the strict-majority overlap test
succeeds in one direction only. -/
theorem addressesMatch_not_symmetric_counterexample :
    addressesMatch (str "alpha alpha delta") (str "alpha gamma") = true ∧
    addressesMatch (str "alpha gamma") (str "alpha alpha delta") = false := by decide

theorem wordMatches_comm (ws1 ws2 : List Str) (h1 : ws1.Nodup) (h2 : ws2.Nodup) :
    wordMatches ws1 ws2 = wordMatches ws2 ws1 := by
  have key : ∀ (u v : List Str), u.Nodup →
      wordMatches u v =
        ((u.toFinset ∩ v.toFinset).filter (fun w => 2 < w.length)).card := by
    intro u v hu
    unfold wordMatches
    have hnd : (u.filter (fun w => decide (2 < w.length) && v.contains w)).Nodup :=
      hu.filter _
    rw [← List.toFinset_card_of_nodup hnd]
    congr 1
    ext w
    simp only [List.mem_toFinset, List.mem_filter, Finset.mem_filter, Finset.mem_inter,
      Bool.and_eq_true, decide_eq_true_eq, List.elem_iff]
    tauto
  rw [key ws1 ws2 h1, key ws2 ws1 h2, Finset.inter_comm]

theorem addrOverlapMatch_comm (n1 n2 : Str)
    (h1 : (goFields n1).Nodup) (h2 : (goFields n2).Nodup) :
    addrOverlapMatch n1 n2 = addrOverlapMatch n2 n1 := by
  simp only [addrOverlapMatch]
  rw [wordMatches_comm _ _ h1 h2, Nat.max_comm]
  by_cases hcond : 0 < (goFields n1).length ∧ 0 < (goFields n2).length
  · rw [if_pos hcond, if_pos ⟨hcond.2, hcond.1⟩]
  · rw [if_neg hcond, if_neg (fun hrev => hcond ⟨hrev.2, hrev.1⟩)]

/-- Claim C10 (amended): the deterministic predicate `addressesMatch` is
symmetric whenever neither normalized address has a repeated word (the
duplicate-sensitive overlap count is the one asymmetric ingredient). -/
theorem addressesMatch_symm_of_nodup_words (a b : Str)
    (ha : (goFields (normalizeAddress (goToLower (goTrimSpace a)))).Nodup)
    (hb : (goFields (normalizeAddress (goToLower (goTrimSpace b)))).Nodup) :
    addressesMatch a b = addressesMatch b a := by
  rw [addressesMatch_decomposition, addressesMatch_decomposition]
  rw [addrOverlapMatch_comm _ _ ha hb]
  rw [show decide (goToLower (goTrimSpace a) = goToLower (goTrimSpace b)) =
      decide (goToLower (goTrimSpace b) = goToLower (goTrimSpace a)) by
    simp [eq_comm]]
  rw [show decide (normalizeAddress (goToLower (goTrimSpace a)) =
        normalizeAddress (goToLower (goTrimSpace b))) =
      decide (normalizeAddress (goToLower (goTrimSpace b)) =
        normalizeAddress (goToLower (goTrimSpace a))) by
    simp [eq_comm]]
  generalize decide (goToLower (goTrimSpace b) = goToLower (goTrimSpace a)) = e1
  generalize decide (normalizeAddress (goToLower (goTrimSpace b)) =
    normalizeAddress (goToLower (goTrimSpace a))) = e2
  generalize goContains (normalizeAddress (goToLower (goTrimSpace a)))
    (normalizeAddress (goToLower (goTrimSpace b))) = c1
  generalize goContains (normalizeAddress (goToLower (goTrimSpace b)))
    (normalizeAddress (goToLower (goTrimSpace a))) = c2
  generalize addrOverlapMatch (normalizeAddress (goToLower (goTrimSpace b)))
    (normalizeAddress (goToLower (goTrimSpace a))) = ov
  cases e1 <;> cases e2 <;> cases c1 <;> cases c2 <;> cases ov <;> rfl

/-- Witness for the amended C10 at concrete duplicate-free addresses. -/
theorem addressesMatch_symm_of_nodup_words_witness :
    (goFields (normalizeAddress (goToLower (goTrimSpace (str "12 Alpha Road"))))).Nodup ∧
    (goFields (normalizeAddress (goToLower (goTrimSpace (str "Beta 9"))))).Nodup ∧
    addressesMatch (str "12 Alpha Road") (str "Beta 9") =
      addressesMatch (str "Beta 9") (str "12 Alpha Road") :=
  ⟨by decide, by decide,
   addressesMatch_symm_of_nodup_words (str "12 Alpha Road") (str "Beta 9")
     (by decide) (by decide)⟩

/-!
## Concurrent merge into the aggregate record (claim C8)

`processOneFileWithSource` calls `UpdateCustomerCheck` under `checkMutex`
only after `AnalyzeDocument` has returned, so each task's merge is one atomic
record transformation and the concurrent execution is some interleaving — an
arbitrary sequence containing every task's merge.  The theorem quantifies over
every such sequence and shows no update is lost.
-/

/-- One task's merge step: `UpdateCustomerCheck` applied under the record
mutex. -/
def applyMerge (check : CustomerCheck) (u : DocumentSource × JData) : CustomerCheck :=
  updateCustomerCheck check u.2 u.1

/-- Business-license task: sets the client name. -/
def mergeBL : DocumentSource × JData :=
  ("business_license", [("client_name", JValue.jstr "ACME Ltd")])

/-- EVN-bill task: sets the billing address. -/
def mergeEVN : DocumentSource × JData :=
  ("evn_bill", [("billing_address", JValue.jstr "12 Nguyen Hue")])

/-- Land-certificate task: sets the ownership situation. -/
def mergeLand : DocumentSource × JData :=
  ("land_certificate", [("situation", JValue.jstr "land_owner")])

/-- Identity-check task: sets the company director name. -/
def mergeID : DocumentSource × JData :=
  ("id_check", [("company_director_name", JValue.jstr "Tran Thi B")])

/-- Site-visit task: sets the signboard status. -/
def mergeSV : DocumentSource × JData :=
  ("site_visit_photos", [("company_signboard", JValue.jstr "available_matches_client_info")])

/-- Financial-statement task: sets the statement date. -/
def mergeFin : DocumentSource × JData :=
  ("financial_statement", [("financial_statement_date", JValue.jstr "2024-12-31")])

/-- CIC-report task: appends one loan. -/
def mergeCIC : DocumentSource × JData :=
  ("cic_report", [("loans", JValue.jarr [JValue.jobj [("payment_history", JValue.jstr "On time")]])])

/-- The seven concurrent merge tasks, each writing a distinct field. -/
def mergeTasks : List (DocumentSource × JData) :=
  [mergeBL, mergeEVN, mergeLand, mergeID, mergeSV, mergeFin, mergeCIC]

/-- The loan the CIC task contributes. -/
def cicLoan : LoanInfo := buildLoanInfo [("payment_history", JValue.jstr "On time")]

theorem applyMerge_mergeBL (s : CustomerCheck) :
    applyMerge s mergeBL = { s with corporate.general.clientName := "ACME Ltd" } := rfl

theorem applyMerge_mergeEVN (s : CustomerCheck) :
    applyMerge s mergeEVN = { s with land.evn.billingAddress := "12 Nguyen Hue" } := rfl

theorem applyMerge_mergeLand (s : CustomerCheck) :
    applyMerge s mergeLand = { s with land.ownership.situation := "land_owner" } := rfl

theorem applyMerge_mergeID (s : CustomerCheck) :
    applyMerge s mergeID =
      { s with corporate.ownership.companyDirectorName := "Tran Thi B" } := rfl

theorem applyMerge_mergeSV (s : CustomerCheck) :
    applyMerge s mergeSV =
      { s with additional.siteVisit.companySignboard :=
          "available_matches_client_info" } := rfl

theorem applyMerge_mergeFin (s : CustomerCheck) :
    applyMerge s mergeFin =
      { s with financial.financialStatementDate := some ⟨2024, 12, 31⟩ } := rfl

theorem applyMerge_mergeCIC (s : CustomerCheck) :
    applyMerge s mergeCIC =
      { s with financial.loans := s.financial.loans ++ [cicLoan] } := rfl

theorem foldl_preserve {α β : Type} (f : α → β → α) (P : α → Prop) (U : List β)
    (hpres : ∀ b ∈ U, ∀ a, P a → P (f a b)) :
    ∀ (l : List β) (a : α), (∀ b ∈ l, b ∈ U) → P a → P (l.foldl f a) := by
  intro l
  induction l with
  | nil => intro a _ h; simpa using h
  | cons b t ih =>
    intro a hsub h
    rw [List.foldl_cons]
    exact ih (f a b) (fun x hx => hsub x (List.mem_cons_of_mem _ hx))
      (hpres b (hsub b (List.mem_cons_self _ _)) a h)

theorem foldl_establish {α β : Type} (f : α → β → α) (P : α → Prop) (U : List β) (u : β)
    (hset : ∀ a, P (f a u))
    (hpres : ∀ b ∈ U, ∀ a, P a → P (f a b)) :
    ∀ (l : List β) (a : α), (∀ b ∈ l, b ∈ U) → u ∈ l → P (l.foldl f a) := by
  intro l
  induction l with
  | nil => intro a _ hu; simp at hu
  | cons b t ih =>
    intro a hsub hu
    rw [List.foldl_cons]
    rcases List.mem_cons.mp hu with rfl | hut
    · exact foldl_preserve f P U hpres t (f a u)
        (fun x hx => hsub x (List.mem_cons_of_mem _ hx)) (hset a)
    · exact ih (f a b) (fun x hx => hsub x (List.mem_cons_of_mem _ hx)) hut

/-- Claim C8: each task's merge into the shared `CustomerCheck` is one atomic
`UpdateCustomerCheck` application performed under the record's mutex (the
source locks only around the merge, after the network call has returned), so a
concurrent execution of the seven distinct-field merge tasks is an arbitrary
sequence of their atomic applications; for every such sequence, from every
initial record, all seven written fields are present afterwards — no update is
lost. -/
theorem updateCustomerCheck_concurrent_merge_no_lost_updates
    (order : List (DocumentSource × JData)) (init : CustomerCheck)
    (hsub : ∀ u ∈ order, u ∈ mergeTasks) (hall : ∀ u ∈ mergeTasks, u ∈ order) :
    (order.foldl applyMerge init).corporate.general.clientName = "ACME Ltd" ∧
    (order.foldl applyMerge init).land.evn.billingAddress = "12 Nguyen Hue" ∧
    (order.foldl applyMerge init).land.ownership.situation = "land_owner" ∧
    (order.foldl applyMerge init).corporate.ownership.companyDirectorName = "Tran Thi B" ∧
    (order.foldl applyMerge init).additional.siteVisit.companySignboard =
      "available_matches_client_info" ∧
    (order.foldl applyMerge init).financial.financialStatementDate =
      some ⟨2024, 12, 31⟩ ∧
    cicLoan ∈ (order.foldl applyMerge init).financial.loans := by
  have hmem : ∀ u ∈ mergeTasks, u ∈ order := hall
  refine ⟨?_, ?_, ?_, ?_, ?_, ?_, ?_⟩
  · refine foldl_establish applyMerge
      (fun s => s.corporate.general.clientName = "ACME Ltd") mergeTasks mergeBL
      (fun a => by rw [applyMerge_mergeBL]) ?_ order init hsub
      (hmem mergeBL (by simp [mergeTasks]))
    intro b hb a h
    simp only [mergeTasks, List.mem_cons, List.not_mem_nil, or_false] at hb
    rcases hb with rfl | rfl | rfl | rfl | rfl | rfl | rfl <;>
      simp only [applyMerge_mergeBL, applyMerge_mergeEVN, applyMerge_mergeLand,
        applyMerge_mergeID, applyMerge_mergeSV, applyMerge_mergeFin, applyMerge_mergeCIC] <;>
      exact h
  · refine foldl_establish applyMerge
      (fun s => s.land.evn.billingAddress = "12 Nguyen Hue") mergeTasks mergeEVN
      (fun a => by rw [applyMerge_mergeEVN]) ?_ order init hsub
      (hmem mergeEVN (by simp [mergeTasks]))
    intro b hb a h
    simp only [mergeTasks, List.mem_cons, List.not_mem_nil, or_false] at hb
    rcases hb with rfl | rfl | rfl | rfl | rfl | rfl | rfl <;>
      simp only [applyMerge_mergeBL, applyMerge_mergeEVN, applyMerge_mergeLand,
        applyMerge_mergeID, applyMerge_mergeSV, applyMerge_mergeFin, applyMerge_mergeCIC] <;>
      exact h
  · refine foldl_establish applyMerge
      (fun s => s.land.ownership.situation = "land_owner") mergeTasks mergeLand
      (fun a => by rw [applyMerge_mergeLand]) ?_ order init hsub
      (hmem mergeLand (by simp [mergeTasks]))
    intro b hb a h
    simp only [mergeTasks, List.mem_cons, List.not_mem_nil, or_false] at hb
    rcases hb with rfl | rfl | rfl | rfl | rfl | rfl | rfl <;>
      simp only [applyMerge_mergeBL, applyMerge_mergeEVN, applyMerge_mergeLand,
        applyMerge_mergeID, applyMerge_mergeSV, applyMerge_mergeFin, applyMerge_mergeCIC] <;>
      exact h
  · refine foldl_establish applyMerge
      (fun s => s.corporate.ownership.companyDirectorName = "Tran Thi B") mergeTasks mergeID
      (fun a => by rw [applyMerge_mergeID]) ?_ order init hsub
      (hmem mergeID (by simp [mergeTasks]))
    intro b hb a h
    simp only [mergeTasks, List.mem_cons, List.not_mem_nil, or_false] at hb
    rcases hb with rfl | rfl | rfl | rfl | rfl | rfl | rfl <;>
      simp only [applyMerge_mergeBL, applyMerge_mergeEVN, applyMerge_mergeLand,
        applyMerge_mergeID, applyMerge_mergeSV, applyMerge_mergeFin, applyMerge_mergeCIC] <;>
      exact h
  · refine foldl_establish applyMerge
      (fun s => s.additional.siteVisit.companySignboard = "available_matches_client_info")
      mergeTasks mergeSV
      (fun a => by rw [applyMerge_mergeSV]) ?_ order init hsub
      (hmem mergeSV (by simp [mergeTasks]))
    intro b hb a h
    simp only [mergeTasks, List.mem_cons, List.not_mem_nil, or_false] at hb
    rcases hb with rfl | rfl | rfl | rfl | rfl | rfl | rfl <;>
      simp only [applyMerge_mergeBL, applyMerge_mergeEVN, applyMerge_mergeLand,
        applyMerge_mergeID, applyMerge_mergeSV, applyMerge_mergeFin, applyMerge_mergeCIC] <;>
      exact h
  · refine foldl_establish applyMerge
      (fun s => s.financial.financialStatementDate = some ⟨2024, 12, 31⟩) mergeTasks mergeFin
      (fun a => by rw [applyMerge_mergeFin]) ?_ order init hsub
      (hmem mergeFin (by simp [mergeTasks]))
    intro b hb a h
    simp only [mergeTasks, List.mem_cons, List.not_mem_nil, or_false] at hb
    rcases hb with rfl | rfl | rfl | rfl | rfl | rfl | rfl <;>
      simp only [applyMerge_mergeBL, applyMerge_mergeEVN, applyMerge_mergeLand,
        applyMerge_mergeID, applyMerge_mergeSV, applyMerge_mergeFin, applyMerge_mergeCIC] <;>
      exact h
  · refine foldl_establish applyMerge
      (fun s => cicLoan ∈ s.financial.loans) mergeTasks mergeCIC
      (fun a => by rw [applyMerge_mergeCIC]; simp) ?_ order init hsub
      (hmem mergeCIC (by simp [mergeTasks]))
    intro b hb a h
    simp only [mergeTasks, List.mem_cons, List.not_mem_nil, or_false] at hb
    rcases hb with rfl | rfl | rfl | rfl | rfl | rfl | rfl <;>
      simp only [applyMerge_mergeBL, applyMerge_mergeEVN, applyMerge_mergeLand,
        applyMerge_mergeID, applyMerge_mergeSV, applyMerge_mergeFin, applyMerge_mergeCIC] <;>
      first
        | exact h
        | exact List.mem_append_left _ h

/-- Witness for C8: the merges applied in reverse order to the empty record
still land every field. -/
theorem updateCustomerCheck_concurrent_merge_no_lost_updates_witness :
    (∀ u ∈ mergeTasks.reverse, u ∈ mergeTasks) ∧
    (∀ u ∈ mergeTasks, u ∈ mergeTasks.reverse) ∧
    ((mergeTasks.reverse.foldl applyMerge {}).corporate.general.clientName = "ACME Ltd" ∧
     (mergeTasks.reverse.foldl applyMerge {}).land.evn.billingAddress = "12 Nguyen Hue" ∧
     (mergeTasks.reverse.foldl applyMerge {}).land.ownership.situation = "land_owner" ∧
     (mergeTasks.reverse.foldl applyMerge {}).corporate.ownership.companyDirectorName =
       "Tran Thi B" ∧
     (mergeTasks.reverse.foldl applyMerge {}).additional.siteVisit.companySignboard =
       "available_matches_client_info" ∧
     (mergeTasks.reverse.foldl applyMerge {}).financial.financialStatementDate =
       some ⟨2024, 12, 31⟩ ∧
     cicLoan ∈ (mergeTasks.reverse.foldl applyMerge {}).financial.loans) :=
  ⟨fun _ hu => List.mem_reverse.mp hu, fun _ hu => List.mem_reverse.mpr hu,
   updateCustomerCheck_concurrent_merge_no_lost_updates mergeTasks.reverse {}
     (fun _ hu => List.mem_reverse.mp hu) (fun _ hu => List.mem_reverse.mpr hu)⟩

/-- Witness for C3: a concrete corrupted-image run in which conversion
produces a path, the vision retry and the Tesseract retry both fail, and the
site-visit kind receives the sentinel with no error. -/
theorem processImageWithRecovery_chain_witness :
    goContainsS "vision error: Bad image data" "Bad image data" = true ∧
    (processImageWithRecovery (.error "vision error: Bad image data") (.ok "/tmp/conv.png")
      (.error "still bad") (.error "tess failed") "site_visit_photos").2 =
      .ok siteVisitSentinel :=
  ⟨by decide,
   (processImageWithRecovery_chain "vision error: Bad image data" "still bad"
      (.ok "/tmp/conv.png") (.error "tess failed") "site_visit_photos"
      (by decide) (fun s h => Except.noConfusion h)).2.2.1 rfl⟩
